import Mathlib

/-!
# Verification of the allkinds match-scoring core

Shallow embedding of the match-scoring / ranking subsystem of the
allkinds-chat-bot repository and proofs of the specified properties.

Embedded source files:
* `src/db/repositories/answer.py` — `get_answer`, `save_answer`,
  `get_user_answers_for_group` (over an in-memory answer table).
* `src/db/repositories/question.py` — `get_questions_by_ids`.
* `src/db/repositories/match_repo.py` — `find_matches`.

The cohesion calculator (`src.bot.utils.matching.calculate_cohesion_scores`)
is imported by `find_matches` but its module is not present in the
repository snapshot; it is modelled from the specification (§4.1) and each
such definition is marked `Modelled from the spec:` in its doc comment.

Python floats are modelled as `ℚ`; machine integers as `Int`/`Nat`
(no overflow is possible at the sizes involved); database tables as lists
of rows; a fallible computation as an `Except`-valued function.
-/

/-! ## Data model (src/db/models/*.py) -/

/-- A row of the `answers` table (`src/db/models/answer.py`).
`value` is the numeric answer used by the matching algorithm
(strong_no = -2, no = -1, yes = 1, strong_yes = 2); `created_at` is an
abstract timestamp. -/
structure AnswerRow where
  id : Nat
  user_id : Nat
  question_id : Nat
  answer_type : String
  value : Int
  created_at : Nat
deriving DecidableEq

/-- A row of the `questions` table (`src/db/models/question.py`), restricted
to the fields the matching core reads. -/
structure QuestionRow where
  id : Nat
  group_id : Nat
  category : Option String
  is_active : Bool
  created_at : Nat
deriving DecidableEq

/-- A row of the `users` table (`src/db/models/user.py`), restricted to the
fields the matching core reads. -/
structure UserRow where
  id : Nat
  is_active : Bool
deriving DecidableEq

/-- A row of the `group_members` table (`src/db/models/group_member.py`),
restricted to the fields the matching core reads. -/
structure GroupMemberRow where
  user_id : Nat
  group_id : Nat
deriving DecidableEq

/-- The database snapshot a `find_matches` call operates on. -/
structure DB where
  users : List UserRow
  members : List GroupMemberRow
  answers : List AnswerRow
  questions : List QuestionRow
deriving DecidableEq

/-! ## A stable descending sort

Python's `list.sort(key=..., reverse=True)` is a stable sort: elements whose
keys compare equal retain their original relative order, also with
`reverse=True`.  We model it with a stable insertion sort: `gt y x = true`
means `y` strictly precedes `x` in the required order, so an element is
inserted before the first earlier-position element that does not strictly
precede it. -/

/-- Insert `x` into `l` after every element that strictly precedes it. -/
def insertSortedDesc (gt : α → α → Bool) (x : α) : List α → List α
  | [] => [x]
  | y :: ys => if gt y x then y :: insertSortedDesc gt x ys else x :: y :: ys

/-- Stable sort putting `gt`-greater elements first; equal elements keep
their original relative order (the fold inserts earlier elements in front of
equal later ones). -/
def stableSortDesc (gt : α → α → Bool) (l : List α) : List α :=
  l.foldr (insertSortedDesc gt) []

/-! ## Answer repository (src/db/repositories/answer.py) -/

/-- The `answers` table together with the autoincrement counter for the
primary key. -/
structure AnswerStore where
  rows : List AnswerRow
  next_id : Nat
deriving DecidableEq

/-- The rows of the `answers` table holding a given user's answer to a given
question (the WHERE clause of `get_answer`, answer.py:19-22). -/
def answers_for_pair (rows : List AnswerRow) (user_id question_id : Nat) : List AnswerRow :=
  rows.filter (fun r => r.user_id == user_id && r.question_id == question_id)

/-- `AnswerRepository.get_answer` (answer.py:13-30): `scalar_one_or_none`
yields the row when exactly one row matches `(user_id, question_id)`, `None`
when no row matches, and raises on several matches — an exception the
function catches, returning `None`. -/
def get_answer (rows : List AnswerRow) (user_id question_id : Nat) : Option AnswerRow :=
  match answers_for_pair rows user_id question_id with
  | [r] => some r
  | _ => none

/-- The UPDATE statement of `BaseRepository.update` (base.py:52-57) on the
`answers` table: set the data fields on every row whose primary key is
`pk`. -/
def updated_rows (rows : List AnswerRow) (pk : Nat) (user_id question_id : Nat)
    (answer_type : String) (value : Int) : List AnswerRow :=
  rows.map (fun r =>
    if r.id == pk then
      { r with user_id := user_id, question_id := question_id,
               answer_type := answer_type, value := value }
    else r)

/-- `AnswerRepository.save_answer` (answer.py:32-95): if an answer exists for
the pair it is updated in place through `BaseRepository.update` (an UPDATE
on the primary key, base.py:49-64, whose `scalar_one_or_none` yields a row
only when exactly one updated row carries the key — `save_answer` raises
when `update` returns no row, and `update` itself raises on several);
otherwise a new row is inserted with the next primary key (`created_at`
defaulting to the current time `now`). -/
def save_answer (s : AnswerStore) (user_id question_id : Nat) (answer_type : String)
    (value : Int) (now : Nat) : Except String AnswerStore :=
  match get_answer s.rows user_id question_id with
  | some existing =>
      match (updated_rows s.rows existing.id user_id question_id answer_type value).filter
          (fun r => r.id == existing.id) with
      | [_] =>
          Except.ok
            { s with rows := updated_rows s.rows existing.id user_id question_id answer_type value }
      | _ => Except.error "Failed to update existing answer"
  | none =>
      Except.ok
        { rows := s.rows ++ [{ id := s.next_id, user_id := user_id,
                               question_id := question_id, answer_type := answer_type,
                               value := value, created_at := now }],
          next_id := s.next_id + 1 }

/-- `AnswerRepository.get_user_answers_for_group` (answer.py:97-119): the
user's answers joined to questions of the group — with no condition on
`Question.is_active` — ordered by `created_at` descending.  (The Python
function additionally converts any database error into `[]`; the pure table
model cannot fail, and store failures are modelled at the `find_matches`
level by `MatchEnv`.) -/
def get_user_answers_for_group (db : DB) (user_id group_id : Nat) : List AnswerRow :=
  stableSortDesc (fun a b => decide (b.created_at < a.created_at))
    (db.answers.filter (fun a =>
      a.user_id == user_id &&
      db.questions.any (fun q => q.id == a.question_id && q.group_id == group_id)))

/-! ## Question repository (src/db/repositories/question.py) -/

/-- `QuestionRepository.get_questions_by_ids` (question.py:188-203): the
questions among `question_ids` that are active, ordered by `created_at`
ascending. -/
def get_questions_by_ids (db : DB) (question_ids : List Nat) : List QuestionRow :=
  if question_ids = [] then []
  else
    stableSortDesc (fun a b => decide (a.created_at < b.created_at))
      (db.questions.filter (fun q => q.id ∈ question_ids && q.is_active))

/-! ## Cohesion calculator

`find_matches` (match_repo.py:120) imports `calculate_cohesion_scores` from
`src.bot.utils.matching`, a module that is not present in the repository
snapshot.  The definitions of this section are therefore modelled from the
specification, §4.1 (contract, algorithm, edge cases) and §6 (collaborator
interfaces). -/

/-- The result quadruple of the cohesion calculator (spec §4.1 contract):
overall score, number of shared questions, per-category average score and
per-category shared-question count. -/
structure CohesionResult where
  score : ℚ
  shared_count : Nat
  category_scores : String → ℚ
  category_counts : String → Nat

/-- Modelled from the spec: the per-question contribution of an answer pair
(§4.1 step 3-4; the module defining it, `src.bot.utils.matching`, is missing
from the snapshot).  Exact agreement carries full weight `1`, near-agreement
(`|va-vb| = 1`) half weight, a complementary pair (opposite sign, equal
magnitude) contributes `0` to the score, and any other divergent pair
contributes negatively in proportion to its magnitude of divergence, scaled
so that the per-question contribution stays within `[-1, 1]`. -/
def contribution (va vb : Int) : ℚ :=
  if va = vb then 1
  else if (va - vb).natAbs = 1 then 1 / 2
  else if va * vb < 0 ∧ va.natAbs = vb.natAbs then 0
  else -(((va - vb).natAbs : ℚ) / 4)

/-- The set of question ids a `(question_id, value)` collection answers. -/
def answeredIds (ans : List (Nat × Int)) : Finset Nat :=
  (ans.map Prod.fst).toFinset

/-- The value a `(question_id, value)` collection gives to question `q`
(`0` when the question is unanswered; on the shared set both users have
answered, so the default is never consulted). -/
def answerValue (ans : List (Nat × Int)) (q : Nat) : Int :=
  ((ans.find? (fun p => p.1 == q)).map Prod.snd).getD 0

/-- The category bucket of question `q` under the category mapping
(spec §4.1 step 5: a question missing from the mapping goes to the
`uncategorized` bucket rather than raising). -/
def categoryKey (cats : Nat → Option String) (q : Nat) : String :=
  (cats q).getD "uncategorized"

/-- Modelled from the spec: the pure cohesion computation (§4.1; its source
module `src.bot.utils.matching` is missing from the snapshot).
`shared` is the intersection of the answered question ids; with no shared
question the result is `(0, 0, {}, {})`; otherwise the score is the sum of
per-question contributions normalized by the shared count, and the category
maps average and count the shared questions per category bucket. -/
def compute_cohesion (ansA ansB : List (Nat × Int)) (cats : Nat → Option String) :
    CohesionResult :=
  let shared := answeredIds ansA ∩ answeredIds ansB
  if shared.card = 0 then ⟨0, 0, fun _ => 0, fun _ => 0⟩
  else
    let contribAt := fun q => contribution (answerValue ansA q) (answerValue ansB q)
    let counts := fun c => (Finset.filter (fun q => categoryKey cats q = c) shared).card
    { score := (∑ q ∈ shared, contribAt q) / (shared.card : ℚ),
      shared_count := shared.card,
      category_scores := fun c =>
        if counts c = 0 then 0
        else (∑ q ∈ Finset.filter (fun q => categoryKey cats q = c) shared, contribAt q) /
          (counts c : ℚ),
      category_counts := counts }

/-- Modelled from the spec: the list of question ids both collections have
answered (spec §4.1 step 1; the defining module is missing from the
snapshot), enumerated in the first collection's order. -/
def shared_question_ids (ansA ansB : List (Nat × Int)) : List Nat :=
  (ansA.map Prod.fst).filter (fun q => ansB.any (fun p => p.1 == q))

/-- Modelled from the spec: the question-category mapping §4.1 consumes,
built through `get_questions_by_ids` (§6: `get_questions_by_ids(ids)` is
"used to build `question_categories`"); a question the lookup does not
return has no category. -/
def question_categories (db : DB) (ids : List Nat) : Nat → Option String :=
  fun q => ((get_questions_by_ids db ids).find? (fun qr => qr.id == q)).bind (fun qr => qr.category)

/-- Modelled from the spec: `calculate_cohesion_scores` as `find_matches`
calls it (match_repo.py:175-177; the defining module is missing from the
snapshot).  Per §4.2 it fetches both users' answers for the group through
`get_user_answers_for_group`, builds the category mapping for the shared
question ids, and runs the pure cohesion computation. -/
def calculate_cohesion_scores (db : DB) (user_id match_id group_id : Nat) : CohesionResult :=
  let ansA := (get_user_answers_for_group db user_id group_id).map
    (fun a => (a.question_id, a.value))
  let ansB := (get_user_answers_for_group db match_id group_id).map
    (fun a => (a.question_id, a.value))
  compute_cohesion ansA ansB (question_categories db (shared_question_ids ansA ansB))

/-! ## Match finder (src/db/repositories/match_repo.py) -/

/-- One element of the list `find_matches` returns (match_repo.py:181-187):
`(matched user id, cohesion score, common questions, category scores,
category counts)`. -/
def MatchTuple : Type :=
  Nat × ℚ × Nat × (String → ℚ) × (String → Nat)

/-- The cohesion score of a match tuple (the `x[1]` of the sort key,
match_repo.py:197). -/
def mscore (t : MatchTuple) : ℚ := t.2.1

/-- The shared-question count of a match tuple. -/
def mcount (t : MatchTuple) : Nat := t.2.2.1

/-- The candidate query of `find_matches` (match_repo.py:132-147): ids of
users joined to a membership row of the group, other than the target user,
whose `User.is_active` flag is set. -/
def potential_matches (db : DB) (user_id group_id : Nat) : List Nat :=
  (db.members.filter (fun m =>
    m.group_id == group_id && m.user_id != user_id &&
    db.users.any (fun u => u.id == m.user_id && u.is_active))).map
    (fun m => m.user_id)

/-- One iteration of the per-candidate loop of `find_matches`
(match_repo.py:170-194): the candidate's cohesion computation runs under a
`try`/`except` whose `continue` skips the candidate on error, and a
successful result is appended only when `common_questions >= 3`
(match_repo.py:180). -/
def candidateResult (score : Nat → Except String CohesionResult) (c : Nat) :
    Option MatchTuple :=
  match score c with
  | Except.ok r =>
      if 3 ≤ r.shared_count then
        some (c, r.score, r.shared_count, r.category_scores, r.category_counts)
      else none
  | Except.error _ => none

/-- The per-candidate loop of `find_matches` (match_repo.py:168-194): the
kept results of the iterations, in candidate enumeration order. -/
def collectResults (score : Nat → Except String CohesionResult) (cands : List Nat) :
    List MatchTuple :=
  cands.filterMap (candidateResult score)

/-- The final sort of `find_matches` (match_repo.py:197):
`match_results.sort(key=lambda x: x[1], reverse=True)` — a stable sort
descending by the cohesion score alone. -/
def sortByScore (l : List MatchTuple) : List MatchTuple :=
  stableSortDesc (fun a b => decide (mscore b < mscore a)) l

/-- The candidate loop followed by the sort (match_repo.py:168-200),
parameterized by the per-candidate cohesion computation so that a failing
candidate can be expressed. -/
def find_matches_core (score : Nat → Except String CohesionResult) (cands : List Nat) :
    List MatchTuple :=
  sortByScore (collectResults score cands)

/-- The fallible collaborators of one `find_matches` call: the candidate
query (match_repo.py:143-161) and the per-candidate cohesion computation
(match_repo.py:175-177), either of which may fail.  An error raised while
fetching the target user's own answers surfaces through `score`, since
`calculate_cohesion_scores` performs that fetch. -/
structure MatchEnv where
  potential : Except String (List Nat)
  score : Nat → Except String CohesionResult

/-- `find_matches` (match_repo.py:97-206) over fallible collaborators: a
failing candidate query is caught and answered with `[]`
(match_repo.py:156-161), an empty candidate list returns `[]` early
(match_repo.py:164-166), a failing candidate is skipped
(match_repo.py:189-194), and the surrounding `try`/`except` turns any other
error into `[]` (match_repo.py:201-206) — so no error ever propagates. -/
def find_matches_impl (env : MatchEnv) : Except String (List MatchTuple) :=
  match env.potential with
  | Except.error _ => Except.ok []
  | Except.ok pm =>
      if pm = [] then Except.ok []
      else Except.ok (find_matches_core env.score pm)

/-- `find_matches` over a database snapshot: the candidate query and the
per-candidate computation instantiated with the pure table model (in which
neither can fail). -/
def find_matches (db : DB) (user_id group_id : Nat) : List MatchTuple :=
  let pm := potential_matches db user_id group_id
  if pm = [] then []
  else find_matches_core (fun c => Except.ok (calculate_cohesion_scores db user_id c group_id)) pm

/-! ## Specification predicates -/

/-- At most one row of the `answers` table per `(user_id, question_id)` pair
(spec §3, Answer invariant). -/
def AtMostOnePerPair (rows : List AnswerRow) : Prop :=
  ∀ u q, (answers_for_pair rows u q).length ≤ 1

/-- The primary-key discipline the database guarantees for the `answers`
table: ids are distinct, and the autoincrement counter exceeds every
existing id. -/
def StoreWF (s : AnswerStore) : Prop :=
  (s.rows.map (fun r => r.id)).Nodup ∧ ∀ r ∈ s.rows, r.id < s.next_id

/-- An answer value the spec admits (§3: one of `{-2, -1, 1, 2}`). -/
def ValidValue (v : Int) : Prop :=
  v = -2 ∨ v = -1 ∨ v = 1 ∨ v = 2

/-- The result list has score descending and breaks score ties by a higher
shared-question count — the ordering the claim asserts, evaluated on the
`(id, score, shared_count)` projection of the result. -/
def tieBreakOrdered (l : List (Nat × ℚ × Nat)) : Prop :=
  l.Pairwise (fun a b => b.2.1 < a.2.1 ∨ (a.2.1 = b.2.1 ∧ b.2.2 ≤ a.2.2))

/-- The `(id, score, shared_count)` projection of a result list. -/
def projections (l : List MatchTuple) : List (Nat × ℚ × Nat) :=
  l.map (fun t => (t.1, mscore t, mcount t))

/-! ## Concrete instances for counterexamples and witnesses -/

/-- A snapshot with a score tie: user 1 answers questions 101-105 with
`strong_yes`; candidate 2 shares questions 101-103 and candidate 3 shares
questions 101-104, all answered identically, so both candidates score the
maximal `1` while candidate 3 shares more questions.  Candidate 2 is
enumerated first. -/
def dbTie : DB :=
  { users := [⟨1, true⟩, ⟨2, true⟩, ⟨3, true⟩],
    members := [⟨1, 1⟩, ⟨2, 1⟩, ⟨3, 1⟩],
    answers :=
      [⟨1, 1, 101, "strong_yes", 2, 1⟩, ⟨2, 1, 102, "strong_yes", 2, 2⟩,
       ⟨3, 1, 103, "strong_yes", 2, 3⟩, ⟨4, 1, 104, "strong_yes", 2, 4⟩,
       ⟨5, 1, 105, "strong_yes", 2, 5⟩,
       ⟨6, 2, 101, "strong_yes", 2, 6⟩, ⟨7, 2, 102, "strong_yes", 2, 7⟩,
       ⟨8, 2, 103, "strong_yes", 2, 8⟩,
       ⟨9, 3, 101, "strong_yes", 2, 9⟩, ⟨10, 3, 102, "strong_yes", 2, 10⟩,
       ⟨11, 3, 103, "strong_yes", 2, 11⟩, ⟨12, 3, 104, "strong_yes", 2, 12⟩],
    questions :=
      [⟨101, 1, some "values", true, 1⟩, ⟨102, 1, some "values", true, 2⟩,
       ⟨103, 1, none, true, 3⟩, ⟨104, 1, none, true, 4⟩, ⟨105, 1, none, true, 5⟩] }

/-- A snapshot in which every question of the group is inactive
(`is_active = false`) yet answered identically by users 1 and 2. -/
def dbInactive : DB :=
  { users := [⟨1, true⟩, ⟨2, true⟩],
    members := [⟨1, 1⟩, ⟨2, 1⟩],
    answers :=
      [⟨1, 1, 201, "strong_yes", 2, 1⟩, ⟨2, 1, 202, "strong_yes", 2, 2⟩,
       ⟨3, 1, 203, "strong_yes", 2, 3⟩,
       ⟨4, 2, 201, "strong_yes", 2, 4⟩, ⟨5, 2, 202, "strong_yes", 2, 5⟩,
       ⟨6, 2, 203, "strong_yes", 2, 6⟩],
    questions :=
      [⟨201, 1, some "values", false, 1⟩, ⟨202, 1, some "lifestyle", false, 2⟩,
       ⟨203, 1, some "values", false, 3⟩] }

/-- A snapshot in which the target user 1 has no answers while candidate 2
has answered every question of the group. -/
def dbNoTargetAnswers : DB :=
  { users := [⟨1, true⟩, ⟨2, true⟩],
    members := [⟨1, 1⟩, ⟨2, 1⟩],
    answers :=
      [⟨1, 2, 301, "yes", 1, 1⟩, ⟨2, 2, 302, "yes", 1, 2⟩, ⟨3, 2, 303, "yes", 1, 3⟩],
    questions :=
      [⟨301, 1, none, true, 1⟩, ⟨302, 1, none, true, 2⟩, ⟨303, 1, none, true, 3⟩] }

/-- A minimal snapshot with one valid match: users 1 and 2 share the three
active questions of group 1 with identical answers. -/
def dbSimple : DB :=
  { users := [⟨1, true⟩, ⟨2, true⟩],
    members := [⟨1, 1⟩, ⟨2, 1⟩],
    answers :=
      [⟨1, 1, 401, "strong_yes", 2, 1⟩, ⟨2, 1, 402, "strong_yes", 2, 2⟩,
       ⟨3, 1, 403, "strong_yes", 2, 3⟩,
       ⟨4, 2, 401, "strong_yes", 2, 4⟩, ⟨5, 2, 402, "strong_yes", 2, 5⟩,
       ⟨6, 2, 403, "strong_yes", 2, 6⟩],
    questions :=
      [⟨401, 1, some "values", true, 1⟩, ⟨402, 1, some "values", true, 2⟩,
       ⟨403, 1, none, true, 3⟩] }

/-- A `find_matches` environment in which fetching the target user's own
answers fails: the candidate query succeeds, and every per-candidate
cohesion computation (which performs the target fetch) raises. -/
def envTargetFetchFails : MatchEnv :=
  { potential := Except.ok [7],
    score := fun _ => Except.error "failed to fetch the target user's answers" }

/-- An empty answer store. -/
def emptyStore : AnswerStore :=
  { rows := [], next_id := 0 }

/-- A store holding one answer of user 1 to question 8. -/
def storeOne : AnswerStore :=
  { rows := [⟨0, 1, 8, "no", -1, 0⟩], next_id := 1 }

/-! ## Lemmas about the stable sort -/

section MainTheorems

attribute [local semireducible] Rat.add Rat.mul Rat.inv Rat.sub

theorem mem_insertSortedDesc {gt : α → α → Bool} {x y : α} {l : List α} :
    y ∈ insertSortedDesc gt x l ↔ y = x ∨ y ∈ l := by
  induction l with
  | nil => simp [insertSortedDesc]
  | cons z zs ih =>
    unfold insertSortedDesc
    by_cases h : gt z x = true
    · simp only [if_pos h, List.mem_cons, ih]
      tauto
    · simp only [if_neg h, List.mem_cons]

theorem mem_stableSortDesc {gt : α → α → Bool} {y : α} {l : List α} :
    y ∈ stableSortDesc gt l ↔ y ∈ l := by
  induction l with
  | nil => simp [stableSortDesc]
  | cons z zs ih =>
    show y ∈ insertSortedDesc gt z (stableSortDesc gt zs) ↔ _
    rw [mem_insertSortedDesc, ih]
    simp

theorem pairwise_insertSortedDesc_score {x : MatchTuple} {l : List MatchTuple}
    (h : l.Pairwise (fun a b => mscore b ≤ mscore a)) :
    (insertSortedDesc (fun a b => decide (mscore b < mscore a)) x l).Pairwise
      (fun a b => mscore b ≤ mscore a) := by
  induction l with
  | nil => simp [insertSortedDesc]
  | cons y ys ih =>
    rw [List.pairwise_cons] at h
    unfold insertSortedDesc
    by_cases hgt : decide (mscore x < mscore y) = true
    · rw [if_pos hgt]
      rw [List.pairwise_cons]
      refine ⟨fun z hz => ?_, ih h.2⟩
      rcases mem_insertSortedDesc.mp hz with hz | hz
      · subst hz
        exact le_of_lt (of_decide_eq_true hgt)
      · exact h.1 z hz
    · rw [if_neg hgt]
      have hxy : mscore y ≤ mscore x := le_of_not_lt (fun hlt => hgt (decide_eq_true hlt))
      rw [List.pairwise_cons]
      refine ⟨fun z hz => ?_, List.pairwise_cons.mpr h⟩
      rcases List.mem_cons.mp hz with hz | hz
      · subst hz; exact hxy
      · exact le_trans (h.1 z hz) hxy

theorem pairwise_sortByScore (l : List MatchTuple) :
    (sortByScore l).Pairwise (fun a b => mscore b ≤ mscore a) := by
  induction l with
  | nil => simp [sortByScore, stableSortDesc]
  | cons x xs ih =>
    show (insertSortedDesc _ x (stableSortDesc _ xs)).Pairwise _
    exact pairwise_insertSortedDesc_score ih

theorem filter_insertSortedDesc_score_ne {x : MatchTuple} {l : List MatchTuple} {r : ℚ}
    (hx : mscore x ≠ r) :
    (insertSortedDesc (fun a b => decide (mscore b < mscore a)) x l).filter
        (fun t => decide (mscore t = r)) =
      l.filter (fun t => decide (mscore t = r)) := by
  induction l with
  | nil => simp [insertSortedDesc, hx]
  | cons y ys ih =>
    unfold insertSortedDesc
    by_cases hgt : decide (mscore x < mscore y) = true
    · rw [if_pos hgt]
      rw [List.filter_cons, List.filter_cons, ih]
    · rw [if_neg hgt]
      rw [List.filter_cons]
      simp [hx]

theorem filter_insertSortedDesc_score_eq {x : MatchTuple} {l : List MatchTuple} {r : ℚ}
    (hx : mscore x = r) :
    (insertSortedDesc (fun a b => decide (mscore b < mscore a)) x l).filter
        (fun t => decide (mscore t = r)) =
      x :: l.filter (fun t => decide (mscore t = r)) := by
  induction l with
  | nil => simp [insertSortedDesc, hx]
  | cons y ys ih =>
    unfold insertSortedDesc
    by_cases hgt : decide (mscore x < mscore y) = true
    · rw [if_pos hgt]
      have hy : mscore y ≠ r := by
        have := of_decide_eq_true hgt
        rw [← hx]
        exact fun he => absurd this (by rw [he]; exact lt_irrefl _)
      have hy' : decide (mscore y = r) = false := by simp [hy]
      rw [List.filter_cons, List.filter_cons, hy']
      simp only [Bool.false_eq_true, if_false]
      exact ih
    · rw [if_neg hgt]
      rw [List.filter_cons]
      simp [hx]

theorem filter_sortByScore (l : List MatchTuple) (r : ℚ) :
    (sortByScore l).filter (fun t => decide (mscore t = r)) =
      l.filter (fun t => decide (mscore t = r)) := by
  induction l with
  | nil => simp [sortByScore, stableSortDesc]
  | cons x xs ih =>
    show (insertSortedDesc _ x (stableSortDesc _ xs)).filter _ = _
    by_cases hx : mscore x = r
    · have hx' : decide (mscore x = r) = true := decide_eq_true hx
      rw [filter_insertSortedDesc_score_eq hx, List.filter_cons, hx', if_pos rfl]
      exact congrArg (List.cons x) ih
    · have hx' : decide (mscore x = r) = false := by simp [hx]
      rw [filter_insertSortedDesc_score_ne hx, List.filter_cons, hx']
      simp only [Bool.false_eq_true, if_false]
      exact ih

/-! ## Lemmas about the candidate loop -/

theorem candidateResult_error {score : Nat → Except String CohesionResult} {c : Nat}
    {e : String} (hs : score c = Except.error e) :
    candidateResult score c = none := by
  unfold candidateResult
  rw [hs]

theorem candidateResult_ok {score : Nat → Except String CohesionResult} {c : Nat}
    {r : CohesionResult} (hs : score c = Except.ok r) :
    candidateResult score c =
      if 3 ≤ r.shared_count then
        some (c, r.score, r.shared_count, r.category_scores, r.category_counts)
      else none := by
  unfold candidateResult
  rw [hs]

theorem mem_collectResults {score : Nat → Except String CohesionResult} {cands : List Nat}
    {t : MatchTuple} (h : t ∈ collectResults score cands) :
    t.1 ∈ cands ∧ 3 ≤ mcount t := by
  unfold collectResults at h
  rcases List.mem_filterMap.mp h with ⟨c, hc, hfc⟩
  rcases hs : score c with e | r
  · rw [candidateResult_error hs] at hfc
    exact absurd hfc (by simp)
  · rw [candidateResult_ok hs] at hfc
    by_cases hn : 3 ≤ r.shared_count
    · rw [if_pos hn] at hfc
      injection hfc with hfc
      subst hfc
      exact ⟨hc, hn⟩
    · rw [if_neg hn] at hfc
      exact absurd hfc (by simp)

theorem mem_find_matches_core {score : Nat → Except String CohesionResult} {cands : List Nat}
    {t : MatchTuple} (h : t ∈ find_matches_core score cands) :
    t.1 ∈ cands ∧ 3 ≤ mcount t :=
  mem_collectResults (mem_stableSortDesc.mp h)

theorem collectResults_skips_errors (score : Nat → Except String CohesionResult)
    (cands : List Nat) :
    collectResults score cands =
      collectResults score (cands.filter (fun c => (score c).toOption.isSome)) := by
  induction cands with
  | nil => rfl
  | cons c cs ih =>
    unfold collectResults at ih ⊢
    rcases hs : score c with e | r
    · have h1 : (score c).toOption.isSome = false := by
        rw [hs]; rfl
      rw [List.filter_cons, h1]
      simp only [Bool.false_eq_true, if_false]
      rw [List.filterMap_cons, candidateResult_error hs]
      exact ih
    · have h1 : (score c).toOption.isSome = true := by
        rw [hs]; rfl
      rw [List.filter_cons, h1, if_pos rfl]
      rw [List.filterMap_cons, List.filterMap_cons]
      cases hcr : candidateResult score c
      · exact ih
      · exact congrArg _ ih

/-- `find_matches` over a database always takes the `find_matches_core`
path: with no candidate the core produces `[]` as well. -/
theorem find_matches_eq_core (db : DB) (user_id group_id : Nat) :
    find_matches db user_id group_id =
      find_matches_core
        (fun c => Except.ok (calculate_cohesion_scores db user_id c group_id))
        (potential_matches db user_id group_id) := by
  unfold find_matches
  by_cases h : potential_matches db user_id group_id = []
  · rw [h]; rfl
  · simp only [if_neg h]

/-! ## Claim C1 -/

/-- C1, counterexample: on `dbTie`, candidates 2 and 3 tie at the maximal
score `1` while candidate 3 shares four questions against candidate 2's
three; `find_matches` nevertheless lists candidate 2 first, because
match_repo.py:197 sorts by score alone (a stable sort keeping enumeration
order on ties) and never consults `common_questions`.  The claimed
tie-break by higher shared count is therefore violated. -/
theorem find_matches_tie_break_counterexample :
    projections (find_matches dbTie 1 1) = [(2, 1, 3), (3, 1, 4)] ∧
      ¬ tieBreakOrdered (projections (find_matches dbTie 1 1)) := by
  constructor
  · decide
  · unfold tieBreakOrdered
    decide

/-- C1 (amended): the list `find_matches` returns is sorted in descending
order of cohesion score; candidates with equal scores keep their candidate
enumeration order (the sort is stable and uses the score alone — equal-score
ties are NOT broken by `shared_question_count`); the order is deterministic
because it is a pure function of the snapshot. -/
theorem find_matches_sorted_stable (db : DB) (user_id group_id : Nat) :
    (find_matches db user_id group_id).Pairwise (fun a b => mscore b ≤ mscore a) ∧
      ∀ r : ℚ, (find_matches db user_id group_id).filter (fun t => decide (mscore t = r)) =
        (collectResults (fun c => Except.ok (calculate_cohesion_scores db user_id c group_id))
          (potential_matches db user_id group_id)).filter (fun t => decide (mscore t = r)) := by
  rw [find_matches_eq_core]
  exact ⟨pairwise_sortByScore _, fun r => filter_sortByScore _ r⟩

/-! ## Claim C2 -/

/-- C2: `find_matches` never returns a candidate whose shared-question count
(`common_questions`) is below the minimum threshold 3; such candidates are
silently omitted by the `common_questions >= 3` guard (match_repo.py:180),
not reported as errors. -/
theorem find_matches_threshold (db : DB) (user_id group_id : Nat) (t : MatchTuple)
    (h : t ∈ find_matches db user_id group_id) : 3 ≤ mcount t := by
  rw [find_matches_eq_core] at h
  exact (mem_find_matches_core h).2

/-- Witness for C2: on `dbSimple` the result is nonempty and its first
element carries at least 3 shared questions. -/
theorem find_matches_threshold_witness :
    ∃ t ∈ find_matches dbSimple 1 1, 3 ≤ mcount t := by
  have h : ∃ t l2, find_matches dbSimple 1 1 = t :: l2 := ⟨_, _, rfl⟩
  rcases h with ⟨t, l2, ht⟩
  exact ⟨t, by rw [ht]; exact List.Mem.head _,
    find_matches_threshold dbSimple 1 1 t (by rw [ht]; exact List.Mem.head _)⟩

/-! ## Claim C4 -/

/-- C4: candidates whose cohesion computation fails are skipped and do not
disturb the rest: the ranking equals the threshold-filtered, sorted ranking
computed over exactly the candidates whose computation succeeds
(match_repo.py:189-194, the per-candidate `except ... continue`). -/
theorem find_matches_skips_failing_candidates (score : Nat → Except String CohesionResult)
    (cands : List Nat) :
    find_matches_core score cands =
      find_matches_core score (cands.filter (fun c => (score c).toOption.isSome)) := by
  unfold find_matches_core
  rw [collectResults_skips_errors]

/-! ## Claim C3 -/

/-- C3, counterexample: in the environment `envTargetFetchFails` every
per-candidate cohesion computation raises — in particular as it would when
fetching the target user's own answers fails, since
`calculate_cohesion_scores` performs that fetch — yet `find_matches`
returns the normal empty-list result and no error: the per-candidate
`except` clause (match_repo.py:189-194) and the surrounding `try`/`except`
(match_repo.py:201-206) convert every failure into a normal result, so a
target-fetch error never propagates to the caller, contradicting the
claim. -/
theorem find_matches_target_error_counterexample :
    find_matches_impl envTargetFetchFails = Except.ok [] ∧
      ∀ e : String, find_matches_impl envTargetFetchFails ≠ Except.error e := by
  constructor
  · rfl
  · intro e h
    rw [show find_matches_impl envTargetFetchFails = Except.ok [] from rfl] at h
    exact Except.noConfusion h

/-- C3 (amended): errors local to a single candidate never abort the whole
ranking, and an error while fetching the target user's own answers does not
propagate either: `find_matches` never surfaces an error, and when every
per-candidate computation fails (as when the target user's answers cannot
be fetched) it returns the normal empty-list result. -/
theorem find_matches_never_propagates (env : MatchEnv) :
    (∃ l, find_matches_impl env = Except.ok l) ∧
      ((∀ c : Nat, (env.score c).toOption = none) →
        find_matches_impl env = Except.ok []) := by
  constructor
  · unfold find_matches_impl
    rcases hp : env.potential with e | pm
    · exact ⟨[], rfl⟩
    · show ∃ l, (if pm = [] then Except.ok []
          else Except.ok (find_matches_core env.score pm)) = Except.ok l
      by_cases h : pm = []
      · rw [if_pos h]; exact ⟨[], rfl⟩
      · rw [if_neg h]; exact ⟨_, rfl⟩
  · intro hall
    unfold find_matches_impl
    rcases hp : env.potential with e | pm
    · rfl
    · show (if pm = [] then Except.ok []
          else Except.ok (find_matches_core env.score pm)) = Except.ok []
      by_cases h : pm = []
      · rw [if_pos h]
      · rw [if_neg h]
        have hcore : find_matches_core env.score pm = [] := by
          unfold find_matches_core collectResults
          have h2 : ∀ c ∈ pm, candidateResult env.score c = none := by
            intro c _
            rcases hs : env.score c with e2 | r
            · exact candidateResult_error hs
            · exact absurd (hall c) (by rw [hs]; simp [Except.toOption])
          rw [List.filterMap_eq_nil_iff.mpr h2]
          rfl
        rw [hcore]

/-- Witness for C3 (amended): in `envTargetFetchFails` every per-candidate
computation fails, and the call returns the empty list rather than an
error. -/
theorem find_matches_never_propagates_witness :
    find_matches_impl envTargetFetchFails = Except.ok [] :=
  (find_matches_never_propagates envTargetFetchFails).2 (fun _ => rfl)

/-! ## Claim C9 -/

theorem contribution_comm (va vb : Int) : contribution va vb = contribution vb va := by
  unfold contribution
  by_cases h1 : va = vb
  · subst h1; rfl
  · have h1b : ¬vb = va := fun h => h1 h.symm
    rw [if_neg h1, if_neg h1b]
    have hd : (va - vb).natAbs = (vb - va).natAbs := by omega
    rw [hd]
    by_cases h2 : (vb - va).natAbs = 1
    · rw [if_pos h2, if_pos h2]
    · rw [if_neg h2, if_neg h2]
      have hiff : (va * vb < 0 ∧ va.natAbs = vb.natAbs) ↔
          (vb * va < 0 ∧ vb.natAbs = va.natAbs) := by
        rw [mul_comm]
        exact and_congr Iff.rfl eq_comm
      by_cases h3 : va * vb < 0 ∧ va.natAbs = vb.natAbs
      · rw [if_pos h3, if_pos (hiff.mp h3)]
      · rw [if_neg h3, if_neg (fun hx => h3 (hiff.mpr hx))]

theorem compute_cohesion_comm (ansA ansB : List (Nat × Int))
    (cats : Nat → Option String) :
    compute_cohesion ansA ansB cats = compute_cohesion ansB ansA cats := by
  unfold compute_cohesion
  rw [Finset.inter_comm (answeredIds ansA)]
  have hc : ∀ q, contribution (answerValue ansA q) (answerValue ansB q) =
      contribution (answerValue ansB q) (answerValue ansA q) :=
    fun q => contribution_comm _ _
  simp only [hc]

theorem mem_shared_question_ids {ansA ansB : List (Nat × Int)} {q : Nat} :
    q ∈ shared_question_ids ansA ansB ↔
      (∃ p ∈ ansA, p.1 = q) ∧ ∃ p ∈ ansB, p.1 = q := by
  unfold shared_question_ids
  rw [List.mem_filter]
  simp only [List.mem_map, List.any_eq_true, beq_iff_eq]

theorem get_questions_by_ids_ext (db : DB) {ids1 ids2 : List Nat}
    (h : ∀ i, i ∈ ids1 ↔ i ∈ ids2) :
    get_questions_by_ids db ids1 = get_questions_by_ids db ids2 := by
  unfold get_questions_by_ids
  by_cases h1 : ids1 = []
  · by_cases h2 : ids2 = []
    · rw [if_pos h1, if_pos h2]
    · rcases List.exists_mem_of_ne_nil ids2 h2 with ⟨x, hx⟩
      have : x ∈ ids1 := (h x).mpr hx
      rw [h1] at this
      cases this
  · by_cases h2 : ids2 = []
    · rcases List.exists_mem_of_ne_nil ids1 h1 with ⟨x, hx⟩
      have : x ∈ ids2 := (h x).mp hx
      rw [h2] at this
      cases this
    · rw [if_neg h1, if_neg h2]
      refine congrArg _ (List.filter_congr (fun qr _ => ?_))
      have : decide (qr.id ∈ ids1) = decide (qr.id ∈ ids2) :=
        decide_eq_decide.mpr (h qr.id)
      rw [this]

theorem question_categories_ext (db : DB) {ids1 ids2 : List Nat}
    (h : ∀ i, i ∈ ids1 ↔ i ∈ ids2) :
    question_categories db ids1 = question_categories db ids2 := by
  funext q
  unfold question_categories
  rw [get_questions_by_ids_ext db h]

/-- C9: the cohesion computation is symmetric in the two answer
collections: swapping them yields the same score, the same shared count and
the same category breakdown (all four components of the result agree), both
for the pure `compute_cohesion` at any category mapping and for the
end-to-end `calculate_cohesion_scores` of the two users. -/
theorem compute_cohesion_symmetric (ansA ansB : List (Nat × Int))
    (cats : Nat → Option String) (db : DB) (user_id match_id group_id : Nat) :
    compute_cohesion ansA ansB cats = compute_cohesion ansB ansA cats ∧
      calculate_cohesion_scores db user_id match_id group_id =
        calculate_cohesion_scores db match_id user_id group_id := by
  refine ⟨compute_cohesion_comm ansA ansB cats, ?_⟩
  simp only [calculate_cohesion_scores]
  rw [question_categories_ext db (fun i => ?_), compute_cohesion_comm]
  rw [mem_shared_question_ids, mem_shared_question_ids]
  exact and_comm

/-! ## Claim C5 -/

theorem compute_cohesion_nil_left (ansB : List (Nat × Int)) (cats : Nat → Option String) :
    compute_cohesion [] ansB cats = ⟨0, 0, fun _ => 0, fun _ => 0⟩ := by
  unfold compute_cohesion answeredIds
  simp

theorem calculate_cohesion_scores_target_empty (db : DB) (user_id match_id group_id : Nat)
    (h : get_user_answers_for_group db user_id group_id = []) :
    (calculate_cohesion_scores db user_id match_id group_id).shared_count = 0 := by
  unfold calculate_cohesion_scores
  rw [h, List.map_nil, compute_cohesion_nil_left]

/-- C5: when the target user has no answers in the group, `find_matches`
returns the empty list — the shared-question count with every candidate is
`0`, below the minimum shared-question threshold `3`. -/
theorem find_matches_empty_target_answers (db : DB) (user_id group_id : Nat)
    (h : get_user_answers_for_group db user_id group_id = []) :
    find_matches db user_id group_id = [] := by
  rw [find_matches_eq_core]
  unfold find_matches_core collectResults
  have h2 : ∀ c ∈ potential_matches db user_id group_id,
      candidateResult (fun c => Except.ok (calculate_cohesion_scores db user_id c group_id))
        c = none := by
    intro c _
    rw [candidateResult_ok rfl, if_neg]
    rw [calculate_cohesion_scores_target_empty db user_id c group_id h]
    omega
  rw [List.filterMap_eq_nil_iff.mpr h2]
  rfl

/-- Witness for C5: on `dbNoTargetAnswers` user 1 has no answers while
candidate 2 answered everything, and the result is empty. -/
theorem find_matches_empty_target_answers_witness :
    find_matches dbNoTargetAnswers 1 1 = [] :=
  find_matches_empty_target_answers dbNoTargetAnswers 1 1 (by decide)

/-! ## Claim C6 -/

/-- C6, counterexample: in `dbInactive` every question of the group is
inactive, yet the three identically-answered inactive questions produce a
full match: the candidate is returned with score `1` and shared count `3`,
and all three questions land in the `uncategorized` bucket of the category
breakdown (their own categories are invisible because `get_questions_by_ids`
filters them out).  Inactive questions therefore do contribute to the score,
the shared count and the category breakdown, contradicting the claim. -/
theorem inactive_question_contributes_counterexample :
    (∀ qr ∈ dbInactive.questions, qr.is_active = false) ∧
      projections (find_matches dbInactive 1 1) = [(2, 1, 3)] ∧
      (calculate_cohesion_scores dbInactive 1 2 1).shared_count = 3 ∧
      (calculate_cohesion_scores dbInactive 1 2 1).score = 1 ∧
      (calculate_cohesion_scores dbInactive 1 2 1).category_counts "uncategorized" = 3 ∧
      (calculate_cohesion_scores dbInactive 1 2 1).category_counts "values" = 0 := by
  refine ⟨by decide, by decide, by decide, by decide, by decide, by decide⟩

/-- C6 (amended): the exclusion of inactive questions is not end-to-end.
The answer fetch `get_user_answers_for_group` keeps an answer exactly when
it belongs to the user and its question belongs to the group — with no
condition on `is_active` — so answers to inactive questions still reach the
scoring pipeline and contribute to the score and the shared count;
`get_questions_by_ids` does return only active questions, so an inactive
question is excluded solely from the named category breakdown (its
contribution falls into the `uncategorized` bucket). -/
theorem inactive_question_handling (db : DB) (user_id group_id : Nat) (a : AnswerRow)
    (ids : List Nat) (qr : QuestionRow) :
    (a ∈ get_user_answers_for_group db user_id group_id ↔
      a ∈ db.answers ∧ a.user_id = user_id ∧
        ∃ q ∈ db.questions, q.id = a.question_id ∧ q.group_id = group_id) ∧
      (qr ∈ get_questions_by_ids db ids → qr.is_active = true) := by
  constructor
  · unfold get_user_answers_for_group
    rw [mem_stableSortDesc, List.mem_filter]
    simp only [Bool.and_eq_true, beq_iff_eq, List.any_eq_true]
  · intro hq
    unfold get_questions_by_ids at hq
    by_cases hids : ids = []
    · rw [if_pos hids] at hq
      cases hq
    · rw [if_neg hids] at hq
      rw [mem_stableSortDesc, List.mem_filter] at hq
      have := hq.2
      simp only [Bool.and_eq_true] at this
      exact this.2

/-- Witness for C6 (amended): on `dbSimple` the answer row of user 1 to
question 401 passes the fetch, and question 401 returned by
`get_questions_by_ids` is active. -/
theorem inactive_question_handling_witness :
    (⟨1, 1, 401, "strong_yes", 2, 1⟩ : AnswerRow) ∈ get_user_answers_for_group dbSimple 1 1 ∧
      (⟨401, 1, some "values", true, 1⟩ : QuestionRow).is_active = true :=
  ⟨(inactive_question_handling dbSimple 1 1 ⟨1, 1, 401, "strong_yes", 2, 1⟩ [401]
      ⟨401, 1, some "values", true, 1⟩).1.mpr
      ⟨by decide, rfl, ⟨401, 1, some "values", true, 1⟩, by decide, rfl, rfl⟩,
    (inactive_question_handling dbSimple 1 1 ⟨1, 1, 401, "strong_yes", 2, 1⟩ [401]
      ⟨401, 1, some "values", true, 1⟩).2 (by decide)⟩

/-! ## Claim C10 -/

/-- C10: `find_matches` performs the candidate filtering itself: its SQL
query (match_repo.py:133-141) joins users to group memberships and keeps
only members of the group other than the target user whose `User.is_active`
flag is set, so every returned id is such a member and never the target. -/
theorem find_matches_filters_candidates (db : DB) (user_id group_id : Nat) (t : MatchTuple)
    (h : t ∈ find_matches db user_id group_id) :
    t.1 ≠ user_id ∧
      (∃ m ∈ db.members, m.user_id = t.1 ∧ m.group_id = group_id) ∧
      ∃ u ∈ db.users, u.id = t.1 ∧ u.is_active = true := by
  rw [find_matches_eq_core] at h
  have h1 : t.1 ∈ potential_matches db user_id group_id := (mem_find_matches_core h).1
  unfold potential_matches at h1
  rcases List.mem_map.mp h1 with ⟨m, hm, hmt⟩
  rcases List.mem_filter.mp hm with ⟨hmem, hpred⟩
  simp only [Bool.and_eq_true, beq_iff_eq, bne_iff_ne, ne_eq, List.any_eq_true] at hpred
  obtain ⟨⟨hg, hne⟩, u, hu, hupred⟩ := hpred
  rw [← hmt]
  exact ⟨hne, ⟨m, hmem, rfl, hg⟩, ⟨u, hu, hupred.1, hupred.2⟩⟩

/-- Witness for C10: on `dbSimple` the single returned candidate is not the
target user, is a member of group 1 and is active. -/
theorem find_matches_filters_candidates_witness :
    ∃ t ∈ find_matches dbSimple 1 1,
      t.1 ≠ 1 ∧
        (∃ m ∈ dbSimple.members, m.user_id = t.1 ∧ m.group_id = 1) ∧
        ∃ u ∈ dbSimple.users, u.id = t.1 ∧ u.is_active = true := by
  have h : ∃ t l2, find_matches dbSimple 1 1 = t :: l2 := ⟨_, _, rfl⟩
  rcases h with ⟨t, l2, ht⟩
  exact ⟨t, by rw [ht]; exact List.Mem.head _,
    find_matches_filters_candidates dbSimple 1 1 t (by rw [ht]; exact List.Mem.head _)⟩

/-! ## Lemmas about the answer store -/

theorem mem_answers_for_pair {rows : List AnswerRow} {u q : Nat} {a : AnswerRow} :
    a ∈ answers_for_pair rows u q ↔ a ∈ rows ∧ a.user_id = u ∧ a.question_id = q := by
  unfold answers_for_pair
  rw [List.mem_filter]
  simp only [Bool.and_eq_true, beq_iff_eq]

theorem answers_for_pair_nil_of_get_none {rows : List AnswerRow} {u q : Nat}
    (h : get_answer rows u q = none)
    (hlen : (answers_for_pair rows u q).length ≤ 1) :
    answers_for_pair rows u q = [] := by
  unfold get_answer at h
  rcases hl : answers_for_pair rows u q with _ | ⟨a, tl⟩
  · rfl
  · rcases tl with _ | ⟨b, tl2⟩
    · rw [hl] at h
      exact Option.noConfusion h
    · rw [hl] at hlen
      simp at hlen

theorem answers_for_pair_singleton_of_get_some {rows : List AnswerRow} {u q : Nat}
    {r0 : AnswerRow} (h : get_answer rows u q = some r0) :
    answers_for_pair rows u q = [r0] := by
  unfold get_answer at h
  rcases hl : answers_for_pair rows u q with _ | ⟨a, tl⟩
  · rw [hl] at h
    exact Option.noConfusion h
  · rcases tl with _ | ⟨b, tl2⟩
    · rw [hl] at h
      injection h with h2
      rw [h2]
    · rw [hl] at h
      exact Option.noConfusion h

theorem filter_by_id_eq_singleton {rows : List AnswerRow} {r0 : AnswerRow}
    (hnd : (rows.map (fun r => r.id)).Nodup) (hr : r0 ∈ rows) :
    rows.filter (fun r => r.id == r0.id) = [r0] := by
  induction rows with
  | nil => cases hr
  | cons a tl ih =>
    rw [List.map_cons, List.nodup_cons] at hnd
    rcases List.mem_cons.mp hr with h | h
    · subst h
      rw [List.filter_cons, beq_self_eq_true, if_pos rfl]
      have htl : ∀ r ∈ tl, ¬(r.id == r0.id) = true := by
        intro r hrm he
        exact hnd.1 ((beq_iff_eq.mp he) ▸ List.mem_map_of_mem (fun r => r.id) hrm)
      rw [List.filter_eq_nil_iff.mpr htl]
    · have ha : (a.id == r0.id) = false := by
        rw [beq_eq_false_iff_ne]
        intro he
        exact hnd.1 (he ▸ List.mem_map_of_mem (fun r => r.id) h)
      rw [List.filter_cons, ha]
      simp only [Bool.false_eq_true, if_false]
      exact ih hnd.2 h

theorem updated_rows_id (rows : List AnswerRow) (pk u q : Nat) (t : String) (v : Int) :
    (updated_rows rows pk u q t v).map (fun r => r.id) = rows.map (fun r => r.id) := by
  unfold updated_rows
  rw [List.map_map]
  refine List.map_congr_left (fun r _ => ?_)
  by_cases h : (r.id == pk) = true
  · simp only [Function.comp_apply, if_pos h]
  · simp only [Function.comp_apply, if_neg h]

theorem answers_for_pair_updated_rows {rows : List AnswerRow} {existing : AnswerRow}
    {u q : Nat} (t : String) (v : Int)
    (hnd : (rows.map (fun r => r.id)).Nodup) (hex : existing ∈ rows)
    (hu : existing.user_id = u) (hq : existing.question_id = q) :
    ∀ u2 q2, answers_for_pair (updated_rows rows existing.id u q t v) u2 q2 =
      (answers_for_pair rows u2 q2).map (fun r =>
        if r.id == existing.id then
          { r with user_id := u, question_id := q, answer_type := t, value := v }
        else r) := by
  intro u2 q2
  unfold answers_for_pair updated_rows
  rw [List.filter_map]
  refine congrArg _ (List.filter_congr (fun x hx => ?_))
  by_cases hid : (x.id == existing.id) = true
  · have hxe : x = existing :=
      List.inj_on_of_nodup_map hnd hx hex (beq_iff_eq.mp hid)
    simp only [Function.comp_apply, if_pos hid]
    rw [hxe, hu, hq]
  · simp only [Function.comp_apply, if_neg hid]

theorem save_answer_eq_of_get_some {s : AnswerStore} {u q : Nat} {existing : AnswerRow}
    (t : String) (v : Int) (now : Nat) (h : get_answer s.rows u q = some existing) :
    save_answer s u q t v now =
      match (updated_rows s.rows existing.id u q t v).filter
          (fun r => r.id == existing.id) with
      | [_] => Except.ok { s with rows := updated_rows s.rows existing.id u q t v }
      | _ => Except.error "Failed to update existing answer" := by
  unfold save_answer
  rw [h]

theorem save_answer_eq_of_get_none {s : AnswerStore} {u q : Nat}
    (t : String) (v : Int) (now : Nat) (h : get_answer s.rows u q = none) :
    save_answer s u q t v now =
      Except.ok
        { rows := s.rows ++ [{ id := s.next_id, user_id := u, question_id := q,
                               answer_type := t, value := v, created_at := now }],
          next_id := s.next_id + 1 } := by
  unfold save_answer
  rw [h]

/-! ## Claim C7 -/

/-- C7: under the database's primary-key discipline, `save_answer` preserves
the invariant of at most one answer row per `(user_id, question_id)` pair:
afterwards exactly one row holds that pair, carrying the new `answer_type`
and `value`; when a row already existed it is updated in place (the row
count is unchanged — no history is kept), otherwise exactly one row is
added. -/
theorem save_answer_unique_per_pair (s : AnswerStore) (u q : Nat) (t : String) (v : Int)
    (now : Nat) (hwf : StoreWF s) (hinv : AtMostOnePerPair s.rows) :
    ∃ s2, save_answer s u q t v now = Except.ok s2 ∧
      StoreWF s2 ∧ AtMostOnePerPair s2.rows ∧
      (answers_for_pair s2.rows u q).length = 1 ∧
      (∀ r ∈ answers_for_pair s2.rows u q, r.answer_type = t ∧ r.value = v) ∧
      ((get_answer s.rows u q).isSome = true → s2.rows.length = s.rows.length) ∧
      (get_answer s.rows u q = none → s2.rows.length = s.rows.length + 1) := by
  rcases hget : get_answer s.rows u q with _ | existing
  · -- no existing answer: a single row is inserted
    have hnil : answers_for_pair s.rows u q = [] :=
      answers_for_pair_nil_of_get_none hget (hinv u q)
    refine ⟨_, save_answer_eq_of_get_none t v now hget, ?_, ?_, ?_, ?_, ?_, ?_⟩
    · constructor
      · rw [List.map_append, List.map_cons, List.map_nil]
        rw [List.nodup_append]
        refine ⟨hwf.1, List.nodup_singleton _, ?_⟩
        intro x hx hx1
        rw [List.mem_singleton] at hx1
        simp only [List.mem_map] at hx
        rcases hx with ⟨r, hr, hrid⟩
        have h2 := hwf.2 r hr
        have h3 : x = s.next_id := hx1
        omega
      · intro r hr
        rcases List.mem_append.mp hr with h | h
        · exact Nat.lt_succ_of_lt (hwf.2 r h)
        · rw [List.mem_singleton] at h
          rw [h]
          exact Nat.lt_succ_self _
    · intro u2 q2
      unfold answers_for_pair
      rw [List.filter_append]
      rcases hb : ((⟨s.next_id, u, q, t, v, now⟩ : AnswerRow).user_id == u2 &&
          (⟨s.next_id, u, q, t, v, now⟩ : AnswerRow).question_id == q2) with _ | _
      · rw [List.length_append]
        have : ([(⟨s.next_id, u, q, t, v, now⟩ : AnswerRow)].filter
            (fun r => r.user_id == u2 && r.question_id == q2)) = [] := by
          rw [List.filter_cons, hb]
          simp
        rw [this]
        simpa using hinv u2 q2
      · simp only [Bool.and_eq_true, beq_iff_eq] at hb
        have hu2 : u2 = u := hb.1.symm
        have hq2 : q2 = q := hb.2.symm
        rw [hu2, hq2]
        have h1 : s.rows.filter (fun r => r.user_id == u && r.question_id == q) = [] := hnil
        rw [h1]
        simp [List.filter_cons]
    · unfold answers_for_pair
      rw [List.filter_append]
      have h1 : s.rows.filter (fun r => r.user_id == u && r.question_id == q) = [] := hnil
      rw [h1]
      simp [List.filter_cons]
    · intro r hr
      rw [mem_answers_for_pair] at hr
      rcases List.mem_append.mp hr.1 with h | h
      · have : r ∈ answers_for_pair s.rows u q :=
          mem_answers_for_pair.mpr ⟨h, hr.2⟩
        rw [hnil] at this
        cases this
      · rw [List.mem_singleton] at h
        rw [h]
        exact ⟨rfl, rfl⟩
    · intro hsome
      exact Bool.noConfusion hsome
    · intro _
      simp
  · -- an existing answer: it is updated in place
    have hsing : answers_for_pair s.rows u q = [existing] :=
      answers_for_pair_singleton_of_get_some hget
    have hex : existing ∈ s.rows ∧ existing.user_id = u ∧ existing.question_id = q := by
      rw [← mem_answers_for_pair, hsing]
      exact List.Mem.head _
    have hpair := answers_for_pair_updated_rows t v hwf.1 hex.1 hex.2.1 hex.2.2
    have hfl : (updated_rows s.rows existing.id u q t v).filter
        (fun r => r.id == existing.id) =
          [{ existing with user_id := u, question_id := q, answer_type := t, value := v }] := by
      unfold updated_rows
      rw [List.filter_map]
      have hcongr : s.rows.filter
          ((fun r => r.id == existing.id) ∘ (fun r =>
            if r.id == existing.id then
              { r with user_id := u, question_id := q, answer_type := t, value := v }
            else r)) = s.rows.filter (fun r => r.id == existing.id) := by
        refine List.filter_congr (fun x _ => ?_)
        by_cases hid : (x.id == existing.id) = true
        · simp only [Function.comp_apply, if_pos hid]
        · simp only [Function.comp_apply, if_neg hid]
      rw [hcongr, filter_by_id_eq_singleton hwf.1 hex.1]
      rw [List.map_cons, List.map_nil, beq_self_eq_true, if_pos rfl]
    refine ⟨{ s with rows := updated_rows s.rows existing.id u q t v }, ?_, ?_, ?_, ?_, ?_, ?_, ?_⟩
    · rw [save_answer_eq_of_get_some t v now hget, hfl]
    · constructor
      · rw [updated_rows_id]
        exact hwf.1
      · intro r hr
        rcases List.mem_map.mp hr with ⟨r0, hr0, hrr⟩
        have hb := hwf.2 r0 hr0
        by_cases hid : (r0.id == existing.id) = true
        · rw [if_pos hid] at hrr
          rw [← hrr]
          exact hb
        · rw [if_neg hid] at hrr
          rw [← hrr]
          exact hb
    · intro u2 q2
      rw [hpair u2 q2, List.length_map]
      exact hinv u2 q2
    · rw [hpair u q, hsing]
      rfl
    · intro r hr
      rw [hpair u q, hsing] at hr
      rw [List.map_cons, List.map_nil, beq_self_eq_true, if_pos rfl] at hr
      rw [List.mem_singleton] at hr
      rw [hr]
      exact ⟨rfl, rfl⟩
    · intro _
      show (updated_rows s.rows existing.id u q t v).length = s.rows.length
      unfold updated_rows
      rw [List.length_map]
    · intro hn
      exact Option.noConfusion hn

/-- Witness for C7: saving a new answer of user 1 to question 8 over the
one-row store `storeOne` updates the existing row in place. -/
theorem save_answer_unique_per_pair_witness :
    ∃ s2, save_answer storeOne 1 8 "yes" 1 9 = Except.ok s2 ∧
      StoreWF s2 ∧ AtMostOnePerPair s2.rows ∧
      (answers_for_pair s2.rows 1 8).length = 1 ∧
      (∀ r ∈ answers_for_pair s2.rows 1 8, r.answer_type = "yes" ∧ r.value = 1) ∧
      ((get_answer storeOne.rows 1 8).isSome = true →
        s2.rows.length = storeOne.rows.length) ∧
      (get_answer storeOne.rows 1 8 = none →
        s2.rows.length = storeOne.rows.length + 1) :=
  save_answer_unique_per_pair storeOne 1 8 "yes" 1 9 ⟨by decide, by decide⟩
    (fun _ _ => List.length_filter_le _ _)

/-! ## Claim C8 -/

/-- C8, counterexample: `save_answer` performs no validation of `value`:
called with the out-of-range value `0` on an empty store, it succeeds and
stores a row whose `value` is `0`, contradicting the claim that the saving
operation maintains the `{-2, -1, 1, 2}` invariant. -/
theorem save_answer_zero_value_counterexample :
    ∃ s2, save_answer emptyStore 9 9 "zero" 0 0 = Except.ok s2 ∧
      ∃ r ∈ s2.rows, r.value = 0 := by
  refine ⟨_, save_answer_eq_of_get_none "zero" 0 0 rfl, ?_⟩
  exact ⟨⟨0, 9, 9, "zero", 0, 0⟩, List.Mem.head _, rfl⟩

/-- C8 (amended): `save_answer` stores whatever value it is given, so the
range invariant is conditional on the caller: when every stored value lies
in `{-2, -1, 1, 2}` and the value being saved does too, every value in the
resulting store still does (a skip never reaches `save_answer`, so no zero
is written by the handlers, but the function itself enforces nothing). -/
theorem save_answer_value_range_conditional (s : AnswerStore) (u q : Nat) (t : String)
    (v : Int) (now : Nat) (hv : ValidValue v)
    (hs : ∀ r ∈ s.rows, ValidValue r.value) :
    ∀ s2, save_answer s u q t v now = Except.ok s2 →
      ∀ r ∈ s2.rows, ValidValue r.value := by
  intro s2 hsave r hr
  rcases hget : get_answer s.rows u q with _ | existing
  · rw [save_answer_eq_of_get_none t v now hget] at hsave
    injection hsave with hsave
    rw [← hsave] at hr
    rcases List.mem_append.mp hr with h | h
    · exact hs r h
    · rw [List.mem_singleton] at h
      rw [h]
      exact hv
  · rw [save_answer_eq_of_get_some t v now hget] at hsave
    rcases hfl : (updated_rows s.rows existing.id u q t v).filter
        (fun r => r.id == existing.id) with _ | ⟨a, tl⟩
    · rw [hfl] at hsave
      exact Except.noConfusion hsave
    · rcases tl with _ | ⟨b, tl2⟩
      · rw [hfl] at hsave
        injection hsave with hsave
        rw [← hsave] at hr
        rcases List.mem_map.mp hr with ⟨r0, hr0, hrr⟩
        by_cases hid : (r0.id == existing.id) = true
        · rw [if_pos hid] at hrr
          rw [← hrr]
          exact hv
        · rw [if_neg hid] at hrr
          rw [← hrr]
          exact hs r0 hr0
      · rw [hfl] at hsave
        exact Except.noConfusion hsave

/-- Witness for C8 (amended): saving the in-range value `2` on the empty
store yields a store whose single row has an in-range value. -/
theorem save_answer_value_range_conditional_witness :
    ValidValue ((⟨0, 3, 4, "strong_yes", 2, 7⟩ : AnswerRow)).value :=
  save_answer_value_range_conditional emptyStore 3 4 "strong_yes" 2 7
    (Or.inr (Or.inr (Or.inr rfl))) (fun r hr => absurd hr (List.not_mem_nil r)) _
    (save_answer_eq_of_get_none "strong_yes" 2 7 rfl)
    ⟨0, 3, 4, "strong_yes", 2, 7⟩ (List.Mem.head _)

end MainTheorems
